import Mathlib

/-!
# CG_LAB2 : a shallow embedding of `src/main.cpp`

The program generates a UV sphere, uploads it to the GPU and renders a
5 x 5 grid of spheres in a frame loop.  This file embeds the host-side logic:

* `MeshGL`, `MeshGL.destroy`, `buildIndexedMesh`, `makeSphere` (mesh generator
  and resource handle),
* `pressedOnce`, `cyclePreset`, `lightPositions`, `srgbToLinear`, `metallic`,
  `roughness`, `frame`, `runLoop` (frame loop).

Conventions.

* `float` values are idealised as elements of a linearly ordered field `α`
  (`ℚ` where everything is rational, `ℝ` where trigonometry is needed).  The
  library functions `std::sin`, `std::cos` and `std::pow` are parameters of
  the definitions, so every definition stays executable.
* In `lightPositions` the arguments handed to `std::sin` and `std::cos` are
  `float` values formed from the elapsed time by a `float` sum or product
  (`t + 3.14f`, `t * 1.3f`, `t * 0.35f`).  These rounded operations are not
  field operations, so they are parameters `fadd` and `fmul` as well.
* `int` loop counters and sizes are natural numbers; the two places where the
  source converts to a 32 bit type (`unsigned int` index entries and the
  `GLsizei` index count) carry the reduction explicitly.
* OpenGL and GLFW are external: object names returned by `glGen*` and the
  values returned by `glfwGetKey` / `glfwGetTime` are inputs of the model, and
  the `glDelete*` calls issued by `destroy` are recorded in a call log.
-/

namespace CGLab2

/-! ## Machine integers -/

/-- Conversion of a non-negative integer value to `unsigned int` (32 bit). -/
def toUnsigned (n : Nat) : Nat := n % 2 ^ 32

/-- The cast `static_cast<GLsizei>(n)` of a `size_t` value: `GLsizei` is a
32 bit signed integer, so the value is reduced modulo `2^32` into the range
`[-2^31, 2^31)`. -/
def toGLsizei (n : Nat) : Int :=
  if n % 2 ^ 32 < 2 ^ 31 then ((n % 2 ^ 32 : Nat) : Int)
  else ((n % 2 ^ 32 : Nat) : Int) - 2 ^ 32

/-! ## Mesh handle -/

/-- The handle `struct MeshGL`: three GL object names and the index count. -/
structure MeshGL where
  VAO : Nat := 0
  VBO : Nat := 0
  EBO : Nat := 0
  indexCount : Int := 0
  deriving DecidableEq, Repr

/-- The GL release calls that `destroy` can issue. -/
inductive GLCall where
  | glDeleteBuffers (name : Nat)
  | glDeleteVertexArrays (name : Nat)
  deriving DecidableEq, Repr

/-- The method `MeshGL::destroy`: each non-zero name is released (EBO, then VBO, then
VAO), then all four fields are reset to 0.  Returns the handle after the call
together with the GL calls issued, in order. -/
def MeshGL.destroy (m : MeshGL) : MeshGL × List GLCall :=
  let c1 := if m.EBO ≠ 0 then [GLCall.glDeleteBuffers m.EBO] else []
  let c2 := if m.VBO ≠ 0 then [GLCall.glDeleteBuffers m.VBO] else []
  let c3 := if m.VAO ≠ 0 then [GLCall.glDeleteVertexArrays m.VAO] else []
  ({ VAO := 0, VBO := 0, EBO := 0, indexCount := 0 }, c1 ++ c2 ++ c3)

/-- The object names handed out by `glGenVertexArrays` / `glGenBuffers`. -/
structure GLNames where
  vao : Nat
  vbo : Nat
  ebo : Nat
  deriving DecidableEq, Repr

/-- The result of an upload: the handle and the contents given to
`glBufferData` for the vertex buffer and for the index buffer. -/
structure Upload (α : Type) where
  mesh : MeshGL
  vertexData : List α
  indexData : List Nat

/-- The function `buildIndexedMesh`: uploads both sequences unchanged and stores
`static_cast<GLsizei>(indices.size())` as the index count. -/
def buildIndexedMesh {α : Type} (g : GLNames) (vertices : List α) (indices : List Nat) :
    Upload α :=
  { mesh := { VAO := g.vao, VBO := g.vbo, EBO := g.ebo,
              indexCount := toGLsizei indices.length }
    vertexData := vertices
    indexData := indices }

/-! ## Sphere generator -/

/-- The constant `PI = 3.1415926535f` of `makeSphere`. -/
def PI {α : Type} [Field α] : α := 3.1415926535

/-- The eight floats pushed for grid point `(i, j)`: position, normal, UV. -/
def sphereVertex {α : Type} [Field α] (sin cos : α → α) (nstacks nslices i j : Nat) : List α :=
  let t : α := (i : α) / (nstacks : α)
  let phi : α := t * PI
  let s : α := (j : α) / (nslices : α)
  let theta : α := s * 2.0 * PI
  let x := sin phi * cos theta
  let y := cos phi
  let z := sin phi * sin theta
  [x, y, z, x, y, z, s, 1.0 - t]

/-- The first loop nest of `makeSphere`: `i = 0..stacks`, `j = 0..slices`. -/
def sphereVertices {α : Type} [Field α] (sin cos : α → α) (nstacks nslices : Nat) : List α :=
  (List.range (nstacks + 1)).flatMap fun i =>
    (List.range (nslices + 1)).flatMap fun j =>
      sphereVertex sin cos nstacks nslices i j

/-- The six index entries pushed for the quad patch `(i, j)`.  Each corner is
an `int` expression stored into an `unsigned int`; the reduction modulo 2^32
leaves every value below 2^31, the range of `int`, unchanged. -/
def sphereQuad (nslices i j : Nat) : List Nat :=
  let ring := nslices + 1
  let a := toUnsigned (i * ring + j)
  let b := toUnsigned ((i + 1) * ring + j)
  let c := toUnsigned ((i + 1) * ring + (j + 1))
  let d := toUnsigned (i * ring + (j + 1))
  [a, b, c, a, c, d]

/-- The second loop nest of `makeSphere`: `i = 0..stacks-1`, `j = 0..slices-1`. -/
def sphereIndices (nstacks nslices : Nat) : List Nat :=
  (List.range nstacks).flatMap fun i =>
    (List.range nslices).flatMap fun j =>
      sphereQuad nslices i j

/-- The function `makeSphere(stacks, slices)`: both loop nests, then the upload. -/
def makeSphere {α : Type} [Field α] (sin cos : α → α) (g : GLNames) (nstacks nslices : Nat) :
    Upload α :=
  buildIndexedMesh g (sphereVertices sin cos nstacks nslices) (sphereIndices nstacks nslices)

/-! ## Frame loop -/

/-- GLFW header constant `GLFW_RELEASE`. -/
def GLFW_RELEASE : Int := 0

/-- GLFW header constant `GLFW_PRESS`. -/
def GLFW_PRESS : Int := 1

/-- GLFW header constant `GLFW_KEY_C`. -/
def GLFW_KEY_C : Nat := 67

/-- GLFW header constant `GLFW_KEY_ESCAPE`. -/
def GLFW_KEY_ESCAPE : Nat := 256

/-- A `glm::vec3`. -/
structure Vec3 (α : Type) where
  x : α
  y : α
  z : α
  deriving DecidableEq, Repr

/-- The array `static int prev[GLFW_KEY_LAST + 1] = {0}` before the first frame. -/
def prevInit : Nat → Int := fun _ => 0

/-- The lambda `pressedOnce(key)`; `cur` is the value `glfwGetKey(w, key)`
returns.  Gives the `fired` flag and the updated `prev` array. -/
def pressedOnce (prev : Nat → Int) (key : Nat) (cur : Int) : Bool × (Nat → Int) :=
  let fired := decide (cur = GLFW_PRESS ∧ prev key ≠ GLFW_PRESS)
  (fired, Function.update prev key cur)

/-- One call of `pressedOnce(key)` per frame, for the listed per-frame key
states; the result lists the `fired` flag of every frame. -/
def pollKey (key : Nat) : (Nat → Int) → List Int → List Bool
  | _, [] => []
  | prev, cur :: rest =>
    (pressedOnce prev key cur).1 :: pollKey key (pressedOnce prev key cur).2 rest

/-- The preset counter (`static int preset = 0`) and the current albedo. -/
structure Material (α : Type) where
  preset : Nat
  albedo : Vec3 α
  deriving DecidableEq, Repr

/-- The material before the frame loop: `albedo(0.95f, 0.0f, 0.0f)`, counter 0. -/
def initMaterial {α : Type} [Field α] : Material α :=
  { preset := 0, albedo := ⟨0.95, 0.0, 0.0⟩ }

/-- The body of `if (pressedOnce(GLFW_KEY_C)) { ... }`. -/
def cyclePreset {α : Type} [Field α] (m : Material α) : Material α :=
  let preset := (m.preset + 1) % 3
  let a0 := if preset = 0 then (⟨0.95, 0.64, 0.54⟩ : Vec3 α) else m.albedo
  let a1 := if preset = 1 then (⟨0.91, 0.78, 0.45⟩ : Vec3 α) else a0
  let a2 := if preset = 2 then (⟨0.82, 0.67, 0.60⟩ : Vec3 α) else a1
  { preset := preset, albedo := a2 }

/-- The material after `n` presses of the C key. -/
def pressC {α : Type} [Field α] : Nat → Material α
  | 0 => initMaterial
  | n + 1 => cyclePreset (pressC n)

/-- The lambda `srgbToLinear`, with `std::pow` as a parameter. -/
def srgbToLinear {α : Type} [Field α] (pow : α → α → α) (c : Vec3 α) : Vec3 α :=
  ⟨pow c.x 2.2, pow c.y 2.2, pow c.z 2.2⟩

/-- The array `lightPositions[]` for elapsed time `t`.  The phases `t + 3.14f`,
`t * 1.3f` and `t * 0.35f` are computed on `float` before the trigonometric
call: `fadd` and `fmul` stand for the `float` sum and product. -/
def lightPositions {α : Type} [Field α] (sin cos : α → α) (fadd fmul : α → α → α) (t : α) :
    List (Vec3 α) :=
  [ ⟨6.0 * cos t, 4.0, 6.0 * sin t⟩,
    ⟨6.0 * cos (fadd t 3.14), 4.0, 6.0 * sin (fadd t 3.14)⟩,
    ⟨0.0, 6.0 + 1.5 * sin (fmul t 1.3), 0.0⟩,
    ⟨8.0 * cos (fmul t 0.35), -2.5, 8.0 * sin (fmul t 0.35)⟩ ]

/-- The array `lightColors[]`. -/
def lightColors {α : Type} [Field α] : List (Vec3 α) :=
  [⟨80.0, 80.0, 80.0⟩, ⟨50.0, 50.0, 50.0⟩, ⟨30.0, 30.0, 30.0⟩, ⟨60.0, 60.0, 60.0⟩]

/-- The library function `glm::clamp(x, minVal, maxVal) = min(max(x, minVal), maxVal)`. -/
def clamp {α : Type} [LinearOrderedField α] (x minVal maxVal : α) : α :=
  min (max x minVal) maxVal

/-- The grid constant `rows`. -/
def rows : Nat := 5

/-- The grid constant `cols`. -/
def cols : Nat := 5

/-- The grid constant `spacing = 2.2f`. -/
def spacing {α : Type} [Field α] : α := 2.2

/-- The value uploaded to `uMetallic` in row `r`: `(float)r / (float)(rows - 1)`. -/
def metallic {α : Type} [Field α] (r : Nat) : α :=
  (r : α) / ((rows - 1 : Nat) : α)

/-- The value uploaded to `uRoughness` in column `c`:
`glm::clamp((float)c / (float)(cols - 1), 0.05f, 1.0f)`. -/
def roughness {α : Type} [LinearOrderedField α] (c : Nat) : α :=
  clamp ((c : α) / ((cols - 1 : Nat) : α)) 0.05 1.0

/-- What one `glDrawElements` call of the grid loop sees. -/
structure Draw (α : Type) where
  uMetallic : α
  uRoughness : α
  translation : Vec3 α
  count : Int
  deriving DecidableEq, Repr

/-- The grid loop: rows outside, columns inside, one draw per cell. -/
def gridDraws {α : Type} [LinearOrderedField α] (indexCount : Int) : List (Draw α) :=
  (List.range rows).flatMap fun r =>
    (List.range cols).map fun c =>
      { uMetallic := metallic r
        uRoughness := roughness c
        translation := ⟨(((c : Int) - 2 : Int) : α) * spacing,
                        (((r : Int) - 2 : Int) : α) * spacing, 0.0⟩
        count := indexCount }

/-- What the outside world supplies in one frame: whether `glfwPollEvents`
delivered a close request, the two key states and the value of `glfwGetTime`. -/
structure FrameInput (α : Type) where
  closeRequest : Bool
  keyEscape : Int
  keyC : Int
  time : α

/-- The mutable state of the frame loop. -/
structure LoopState (α : Type) where
  prev : Nat → Int
  material : Material α
  shouldClose : Bool

/-- The state before the first frame. -/
def initState {α : Type} [Field α] : LoopState α :=
  { prev := prevInit, material := initMaterial, shouldClose := false }

/-- The uniforms and draws of one frame. -/
structure FrameOutput (α : Type) where
  escFired : Bool
  cFired : Bool
  uLightPos : List (Vec3 α)
  uLightColor : List (Vec3 α)
  uAlbedo : Vec3 α
  uAO : α
  draws : List (Draw α)

/-- One iteration of the `while` body. -/
def frame {α : Type} [LinearOrderedField α] (sin cos : α → α) (fadd fmul pow : α → α → α)
    (indexCount : Int) (s : LoopState α) (inp : FrameInput α) :
    LoopState α × FrameOutput α :=
  let e := pressedOnce s.prev GLFW_KEY_ESCAPE inp.keyEscape
  let k := pressedOnce e.2 GLFW_KEY_C inp.keyC
  let mat := if k.1 then cyclePreset s.material else s.material
  ({ prev := k.2
     material := mat
     shouldClose := s.shouldClose || inp.closeRequest || e.1 },
   { escFired := e.1
     cFired := k.1
     uLightPos := lightPositions sin cos fadd fmul inp.time
     uLightColor := lightColors
     uAlbedo := srgbToLinear pow mat.albedo
     uAO := 1.0
     draws := gridDraws indexCount })

/-- The loop `while (!glfwWindowShouldClose(w))`, one input record per frame:
the state when the loop stops (or the inputs run out) and the output of every
executed frame. -/
def runLoop {α : Type} [LinearOrderedField α] (sin cos : α → α)
    (fadd fmul pow : α → α → α)
    (indexCount : Int) : LoopState α → List (FrameInput α) → LoopState α × List (FrameOutput α)
  | s, [] => (s, [])
  | s, inp :: rest =>
    if s.shouldClose then (s, [])
    else
      let r := frame sin cos fadd fmul pow indexCount s inp
      let q := runLoop sin cos fadd fmul pow indexCount r.1 rest
      (q.1, r.2 :: q.2)

/-- The number of frames on which the key goes from not pressed (`last`, the
state on the frame before) to pressed. -/
def risingEdges : Int → List Int → Nat
  | _, [] => 0
  | last, cur :: rest =>
    (if cur = GLFW_PRESS ∧ last ≠ GLFW_PRESS then 1 else 0) + risingEdges cur rest

/-- The six entries the specification lists for the quad patch `(i, j)` of a
sphere with `L` slices: `a, b, c, a, c, d` with the corner numbers as plain
integers. -/
def patchTriangles (L i j : Nat) : List Nat :=
  let a := i * (L + 1) + j
  let b := (i + 1) * (L + 1) + j
  let c := (i + 1) * (L + 1) + j + 1
  let d := i * (L + 1) + j + 1
  [a, b, c, a, c, d]

/-- The state of the key on the frame before frame `n` of `states`; `last`
is its state before the first listed frame. -/
def keyBefore (last : Int) (states : List Int) : Nat → Int
  | 0 => last
  | n + 1 => states.getD n GLFW_RELEASE

/-! ## Lists built from equal-length chunks -/

theorem length_flatMap_range {β : Type} (f : Nat → List β) (m : Nat) :
    ∀ n : Nat, (∀ i, i < n → (f i).length = m) →
      ((List.range n).flatMap f).length = m * n := by
  intro n
  induction n with
  | zero => intro _; simp
  | succ n ih =>
    intro h
    rw [List.range_succ, List.flatMap_append, List.length_append,
      ih (fun i hi => h i (Nat.lt_succ_of_lt hi))]
    simp [h n (Nat.lt_succ_self n), Nat.mul_succ]

theorem getElem?_flatMap_range {β : Type} (f : Nat → List β) (m : Nat) :
    ∀ n : Nat, (∀ i, i < n → (f i).length = m) →
      ∀ i r : Nat, i < n → r < m →
        ((List.range n).flatMap f)[m * i + r]? = (f i)[r]? := by
  intro n
  induction n with
  | zero => intro _ i r hi; exact absurd hi (Nat.not_lt_zero i)
  | succ n ih =>
    intro h i r hi hr
    have hlen := length_flatMap_range f m n (fun k hk => h k (Nat.lt_succ_of_lt hk))
    rw [List.range_succ, List.flatMap_append]
    rcases Nat.lt_succ_iff_lt_or_eq.mp hi with hlt | heq
    · have hpos : m * i + r < ((List.range n).flatMap f).length := by
        rw [hlen]
        calc m * i + r < m * i + m := Nat.add_lt_add_left hr _
          _ = m * (i + 1) := by ring
          _ ≤ m * n := Nat.mul_le_mul_left m hlt
      rw [List.getElem?_append_left hpos]
      exact ih (fun k hk => h k (Nat.lt_succ_of_lt hk)) i r hlt hr
    · subst heq
      have hge : ((List.range i).flatMap f).length ≤ m * i + r := by
        rw [hlen]; exact Nat.le_add_right _ _
      rw [List.getElem?_append_right hge, hlen]
      simp

theorem take_drop_of_getElem? {β : Type} (l part : List β) (n : Nat)
    (h : ∀ r, r < part.length → part[r]? = l[n + r]?) :
    (l.drop n).take part.length = part := by
  apply List.ext_getElem?
  intro r
  by_cases hr : r < part.length
  · rw [List.getElem?_take_of_lt hr, List.getElem?_drop]
    exact (h r hr).symm
  · rw [List.getElem?_eq_none (Nat.le_of_not_lt hr), List.getElem?_eq_none]
    rw [List.length_take]
    omega

/-! ## The sphere buffers -/

theorem sphereVertex_length {α : Type} [Field α] (sin cos : α → α) (S L i j : Nat) :
    (sphereVertex sin cos S L i j).length = 8 := rfl

theorem sphereQuad_length (L i j : Nat) : (sphereQuad L i j).length = 6 := rfl

theorem sphereVertices_length {α : Type} [Field α] (sin cos : α → α) (S L : Nat) :
    (sphereVertices sin cos S L).length = 8 * ((S + 1) * (L + 1)) := by
  unfold sphereVertices
  rw [length_flatMap_range _ (8 * (L + 1)) (S + 1)
    (fun i _ => length_flatMap_range _ 8 (L + 1) (fun j _ => sphereVertex_length sin cos S L i j))]
  ring

theorem sphereIndices_length (S L : Nat) : (sphereIndices S L).length = 6 * S * L := by
  unfold sphereIndices
  rw [length_flatMap_range _ (6 * L) S
    (fun i _ => length_flatMap_range _ 6 L (fun j _ => sphereQuad_length L i j))]
  ring

theorem sphereIndices_getElem? (S L i j r : Nat) (hi : i < S) (hj : j < L) (hr : r < 6) :
    (sphereIndices S L)[6 * (i * L + j) + r]? = (sphereQuad L i j)[r]? := by
  have hinner : ∀ i', i' < S →
      ((List.range L).flatMap fun j' => sphereQuad L i' j').length = 6 * L :=
    fun i' _ => length_flatMap_range _ 6 L (fun j' _ => sphereQuad_length L i' j')
  have hidx : 6 * (i * L + j) + r = 6 * L * i + (6 * j + r) := by ring
  have hlt : 6 * j + r < 6 * L := by omega
  unfold sphereIndices
  rw [hidx, getElem?_flatMap_range _ (6 * L) S hinner i (6 * j + r) hi hlt]
  exact getElem?_flatMap_range _ 6 L (fun j' _ => sphereQuad_length L i j') j r hj hr

theorem sphereVertices_getElem? {α : Type} [Field α] (sin cos : α → α)
    (S L i j r : Nat) (hi : i < S + 1) (hj : j < L + 1) (hr : r < 8) :
    (sphereVertices sin cos S L)[8 * (i * (L + 1) + j) + r]?
      = (sphereVertex sin cos S L i j)[r]? := by
  have hinner : ∀ i', i' < S + 1 →
      ((List.range (L + 1)).flatMap fun j' => sphereVertex sin cos S L i' j').length
        = 8 * (L + 1) :=
    fun i' _ => length_flatMap_range _ 8 (L + 1) (fun j' _ => sphereVertex_length sin cos S L i' j')
  have hidx : 8 * (i * (L + 1) + j) + r = 8 * (L + 1) * i + (8 * j + r) := by ring
  have hlt : 8 * j + r < 8 * (L + 1) := by omega
  unfold sphereVertices
  rw [hidx, getElem?_flatMap_range _ (8 * (L + 1)) (S + 1) hinner i (8 * j + r) hi hlt]
  exact getElem?_flatMap_range _ 8 (L + 1)
    (fun j' _ => sphereVertex_length sin cos S L i j') j r hj hr

theorem toUnsigned_le (n : Nat) : toUnsigned n ≤ n := Nat.mod_le n _

theorem toUnsigned_of_lt (n : Nat) (h : n < 2 ^ 32) : toUnsigned n = n := Nat.mod_eq_of_lt h

theorem toGLsizei_of_lt (n : Nat) (h : n < 2 ^ 31) : toGLsizei n = (n : Int) := by
  have h32 : n % 2 ^ 32 = n := Nat.mod_eq_of_lt (by omega)
  unfold toGLsizei
  rw [h32, if_pos h]

theorem mem_sphereQuad_lt (S L i j x : Nat) (hi : i < S) (hj : j < L)
    (hx : x ∈ sphereQuad L i j) : x < (S + 1) * (L + 1) := by
  have hb : (i + 1) * (L + 1) + (j + 1) < (S + 1) * (L + 1) := by
    have h1 : (i + 1) * (L + 1) + (L + 1) ≤ (S + 1) * (L + 1) := by
      have : (i + 1 + 1) * (L + 1) ≤ (S + 1) * (L + 1) :=
        Nat.mul_le_mul_right _ (by omega)
      calc (i + 1) * (L + 1) + (L + 1) = (i + 1 + 1) * (L + 1) := by ring
        _ ≤ (S + 1) * (L + 1) := this
    omega
  have hmono : i * (L + 1) ≤ (i + 1) * (L + 1) := Nat.mul_le_mul_right _ (by omega)
  have ha := toUnsigned_le (i * (L + 1) + j)
  have hb' := toUnsigned_le ((i + 1) * (L + 1) + j)
  have hc := toUnsigned_le ((i + 1) * (L + 1) + (j + 1))
  have hd := toUnsigned_le (i * (L + 1) + (j + 1))
  simp only [sphereQuad, List.mem_cons, List.mem_singleton, List.not_mem_nil, or_false] at hx
  rcases hx with h | h | h | h | h | h <;> subst h <;> omega

/-! ## Claims about the mesh generator -/

/-- C1, as stated, fails: for stacks = 1 and slices = 357913942 the index
buffer has 2147483652 entries, which does not fit the 32 bit signed
`indexCount`; the stored count is negative and differs from 6*S*L. -/
theorem makeSphere_counts_counterexample :
    ¬ ((makeSphere Real.sin Real.cos ⟨1, 1, 2⟩ 1 357913942).vertexData.length
          = 8 * ((1 + 1) * (357913942 + 1))
        ∧ (makeSphere Real.sin Real.cos ⟨1, 1, 2⟩ 1 357913942).indexData.length
          = 6 * 1 * 357913942
        ∧ (makeSphere Real.sin Real.cos ⟨1, 1, 2⟩ 1 357913942).mesh.indexCount
          = ((6 * 1 * 357913942 : Nat) : Int)) := by
  rintro ⟨-, -, h⟩
  simp only [makeSphere, buildIndexedMesh, sphereIndices_length] at h
  revert h
  decide

/-- C1, amended: for all stacks S and slices L the vertex buffer holds
8*(S+1)*(L+1) floats, i.e. (S+1)*(L+1) vertices, and the index buffer holds
6*S*L entries; the stored `indexCount` equals 6*S*L whenever 6*S*L is below
2^31, the range of `GLsizei`. -/
theorem makeSphere_counts {α : Type} [Field α] (sin cos : α → α) (g : GLNames) (S L : Nat) :
    (makeSphere sin cos g S L).vertexData.length = 8 * ((S + 1) * (L + 1))
      ∧ (makeSphere sin cos g S L).indexData.length = 6 * S * L
      ∧ (6 * S * L < 2 ^ 31 →
          (makeSphere sin cos g S L).mesh.indexCount = ((6 * S * L : Nat) : Int)) := by
  refine ⟨sphereVertices_length sin cos S L, sphereIndices_length S L, fun h => ?_⟩
  simp only [makeSphere, buildIndexedMesh, sphereIndices_length]
  exact toGLsizei_of_lt _ h

/-- Witness for C1 at the values the program uses, `makeSphere(32, 64)`. -/
theorem makeSphere_counts_witness :
    6 * 32 * 64 < 2 ^ 31
      ∧ (makeSphere Real.sin Real.cos ⟨1, 1, 2⟩ 32 64).mesh.indexCount
          = ((6 * 32 * 64 : Nat) : Int) :=
  ⟨by norm_num, (makeSphere_counts Real.sin Real.cos ⟨1, 1, 2⟩ 32 64).2.2 (by norm_num)⟩

/-- C2: every entry of the index buffer built by `makeSphere` is smaller than
the number of vertices (S+1)*(L+1), and the eight floats of the vertex it
names lie inside the vertex buffer. -/
theorem makeSphere_indices_valid {α : Type} [Field α] (sin cos : α → α) (g : GLNames)
    (S L x : Nat) (hx : x ∈ (makeSphere sin cos g S L).indexData) :
    x < (S + 1) * (L + 1) ∧ 8 * x + 8 ≤ (makeSphere sin cos g S L).vertexData.length := by
  have hlt : x < (S + 1) * (L + 1) := by
    simp only [makeSphere, buildIndexedMesh, sphereIndices, List.mem_flatMap,
      List.mem_range] at hx
    obtain ⟨i, hi, j, hj, hq⟩ := hx
    exact mem_sphereQuad_lt S L i j x hi hj hq
  refine ⟨hlt, ?_⟩
  have hlen : (makeSphere sin cos g S L).vertexData.length = 8 * ((S + 1) * (L + 1)) :=
    sphereVertices_length sin cos S L
  omega

/-- Witness for C2: entry 3 of the index buffer of `makeSphere(1, 1)`. -/
theorem makeSphere_indices_valid_witness :
    3 ∈ (makeSphere Real.sin Real.cos ⟨1, 1, 2⟩ 1 1).indexData
      ∧ 3 < (1 + 1) * (1 + 1)
      ∧ 8 * 3 + 8 ≤ (makeSphere Real.sin Real.cos ⟨1, 1, 2⟩ 1 1).vertexData.length :=
  have h : 3 ∈ (makeSphere Real.sin Real.cos ⟨1, 1, 2⟩ 1 1).indexData := by
    simp [makeSphere, buildIndexedMesh, sphereIndices, sphereQuad, toUnsigned,
      List.range_succ]
  ⟨h, makeSphere_indices_valid Real.sin Real.cos ⟨1, 1, 2⟩ 1 1 3 h⟩

/-- C9, as stated, fails: for stacks = slices = 65536 the corner `c` of the
last patch (65535, 65535) would be 4295098368, which is no `unsigned int`; the
entry stored at offset 6*(i*L+j)+2 is 131072. -/
theorem makeSphere_patch_counterexample :
    (makeSphere Real.sin Real.cos ⟨1, 1, 2⟩ 65536 65536).indexData[
        6 * (65535 * 65536 + 65535) + 2]? = some 131072
      ∧ (makeSphere Real.sin Real.cos ⟨1, 1, 2⟩ 65536 65536).indexData[
        6 * (65535 * 65536 + 65535) + 2]? ≠ (patchTriangles 65536 65535 65535)[2]? := by
  simp only [makeSphere, buildIndexedMesh]
  rw [sphereIndices_getElem? 65536 65536 65535 65535 2 (by norm_num) (by norm_num)
    (by norm_num)]
  constructor
  · simp [sphereQuad, toUnsigned]
  · simp [sphereQuad, toUnsigned, patchTriangles]

/-- C9, amended: when (S+1)*(L+1) is at most 2^31, so that every corner number
is computed without overflow, the six index entries at offset 6*(i*L+j) are
a, b, c, a, c, d for every patch i < S, j < L. -/
theorem makeSphere_patch {α : Type} [Field α] (sin cos : α → α) (g : GLNames)
    (S L i j : Nat) (hfit : (S + 1) * (L + 1) ≤ 2 ^ 31) (hi : i < S) (hj : j < L) :
    ((makeSphere sin cos g S L).indexData.drop (6 * (i * L + j))).take 6
      = patchTriangles L i j := by
  have hc : (i + 1) * (L + 1) + (j + 1) < 2 ^ 32 := by
    have h1 : (i + 1 + 1) * (L + 1) ≤ (S + 1) * (L + 1) := Nat.mul_le_mul_right _ (by omega)
    have h2 : (i + 1 + 1) * (L + 1) = (i + 1) * (L + 1) + (L + 1) := by ring
    omega
  have hmono : i * (L + 1) ≤ (i + 1) * (L + 1) := Nat.mul_le_mul_right _ (by omega)
  have hq : sphereQuad L i j = patchTriangles L i j := by
    simp only [sphereQuad, patchTriangles]
    rw [toUnsigned_of_lt _ (by omega : i * (L + 1) + j < 2 ^ 32),
      toUnsigned_of_lt _ (by omega : (i + 1) * (L + 1) + j < 2 ^ 32),
      toUnsigned_of_lt _ hc,
      toUnsigned_of_lt _ (by omega : i * (L + 1) + (j + 1) < 2 ^ 32)]
    rfl
  rw [← hq]
  apply List.ext_getElem?
  intro r
  show (((sphereIndices S L).drop (6 * (i * L + j))).take 6)[r]? = (sphereQuad L i j)[r]?
  by_cases hr : r < 6
  · rw [List.getElem?_take_of_lt hr, List.getElem?_drop]
    exact sphereIndices_getElem? S L i j r hi hj hr
  · have h6 : (sphereQuad L i j).length ≤ r := by
      rw [sphereQuad_length]; omega
    rw [List.getElem?_eq_none h6, List.getElem?_eq_none]
    rw [List.length_take]
    omega

/-- Witness for C9 at the values the program uses: patch (31, 63) of
`makeSphere(32, 64)`. -/
theorem makeSphere_patch_witness :
    (32 + 1) * (64 + 1) ≤ 2 ^ 31 ∧ 31 < 32 ∧ 63 < 64
      ∧ ((makeSphere Real.sin Real.cos ⟨1, 1, 2⟩ 32 64).indexData.drop
            (6 * (31 * 64 + 63))).take 6 = patchTriangles 64 31 63 :=
  ⟨by norm_num, by norm_num, by norm_num,
    makeSphere_patch Real.sin Real.cos ⟨1, 1, 2⟩ 32 64 31 63
      (by norm_num) (by norm_num) (by norm_num)⟩

/-- C3: with `std::sin` and `std::cos` read as the real sine and cosine, every
vertex k of `makeSphere(S, L)` (S, L at least 1) stores the same three numbers
as position and as normal, these are (sin phi cos theta, cos phi,
sin phi sin theta) for its ring and slice, and x^2 + y^2 + z^2 = 1. -/
theorem makeSphere_vertex_unit (g : GLNames) (S L k : Nat) (hS : 1 ≤ S) (hL : 1 ≤ L)
    (hk : k < (S + 1) * (L + 1)) :
    ∃ x y z : ℝ,
      ((makeSphere Real.sin Real.cos g S L).vertexData.drop (8 * k)).take 6
          = [x, y, z, x, y, z]
        ∧ x = Real.sin (((k / (L + 1) : Nat) : ℝ) / (S : ℝ) * PI)
              * Real.cos (((k % (L + 1) : Nat) : ℝ) / (L : ℝ) * 2.0 * PI)
        ∧ y = Real.cos (((k / (L + 1) : Nat) : ℝ) / (S : ℝ) * PI)
        ∧ z = Real.sin (((k / (L + 1) : Nat) : ℝ) / (S : ℝ) * PI)
              * Real.sin (((k % (L + 1) : Nat) : ℝ) / (L : ℝ) * 2.0 * PI)
        ∧ x ^ 2 + y ^ 2 + z ^ 2 = 1 := by
  have _hS := hS
  have _hL := hL
  have hi : k / (L + 1) < S + 1 := by
    rw [Nat.div_lt_iff_lt_mul (Nat.succ_pos L)]; exact hk
  have hj : k % (L + 1) < L + 1 := Nat.mod_lt _ (Nat.succ_pos L)
  have hkeq : k = k / (L + 1) * (L + 1) + k % (L + 1) := (Nat.div_add_mod' k (L + 1)).symm
  refine ⟨_, _, _, ?_, rfl, rfl, rfl, ?_⟩
  · apply take_drop_of_getElem? (makeSphere Real.sin Real.cos g S L).vertexData
      [_, _, _, _, _, _] (8 * k)
    intro r hr
    have hr6 : r < 6 := hr
    show _ = (sphereVertices Real.sin Real.cos S L)[8 * k + r]?
    have h := sphereVertices_getElem? Real.sin Real.cos S L (k / (L + 1)) (k % (L + 1)) r
      hi hj (by omega)
    rw [← hkeq] at h
    rw [h]
    interval_cases r <;> rfl
  · have h1 := Real.sin_sq_add_cos_sq (((k / (L + 1) : Nat) : ℝ) / (S : ℝ) * PI)
    have h2 := Real.sin_sq_add_cos_sq (((k % (L + 1) : Nat) : ℝ) / (L : ℝ) * 2.0 * PI)
    linear_combination
      (Real.sin (((k / (L + 1) : Nat) : ℝ) / (S : ℝ) * PI)) ^ 2 * h2 + h1

/-- Witness for C3: vertex 2144, the last one of `makeSphere(32, 64)`. -/
theorem makeSphere_vertex_unit_witness :
    1 ≤ 32 ∧ 1 ≤ 64 ∧ 2144 < (32 + 1) * (64 + 1) ∧
    ∃ x y z : ℝ,
      ((makeSphere Real.sin Real.cos ⟨1, 1, 2⟩ 32 64).vertexData.drop (8 * 2144)).take 6
          = [x, y, z, x, y, z]
        ∧ x = Real.sin (((2144 / (64 + 1) : Nat) : ℝ) / ((32 : Nat) : ℝ) * PI)
              * Real.cos (((2144 % (64 + 1) : Nat) : ℝ) / ((64 : Nat) : ℝ) * 2.0 * PI)
        ∧ y = Real.cos (((2144 / (64 + 1) : Nat) : ℝ) / ((32 : Nat) : ℝ) * PI)
        ∧ z = Real.sin (((2144 / (64 + 1) : Nat) : ℝ) / ((32 : Nat) : ℝ) * PI)
              * Real.sin (((2144 % (64 + 1) : Nat) : ℝ) / ((64 : Nat) : ℝ) * 2.0 * PI)
        ∧ x ^ 2 + y ^ 2 + z ^ 2 = 1 :=
  ⟨by norm_num, by norm_num, by norm_num,
    makeSphere_vertex_unit ⟨1, 1, 2⟩ 32 64 2144 (by norm_num) (by norm_num) (by norm_num)⟩

/-! ## Claims about the mesh handle -/

/-- C7: after `destroy` all four fields of the handle are 0, and `destroy` on
such a handle issues no GL delete call and leaves the handle as it is. -/
theorem destroy_idempotent (m : MeshGL) :
    (m.destroy).1 = { VAO := 0, VBO := 0, EBO := 0, indexCount := 0 }
      ∧ ((m.destroy).1.destroy).2 = []
      ∧ ((m.destroy).1.destroy).1 = (m.destroy).1 := by
  refine ⟨rfl, ?_, rfl⟩
  simp [MeshGL.destroy]

/-! ## Claims about the frame loop -/

/-- C6: in the 5 x 5 grid, metallic is 0 in row 0 and 1 in row 4, roughness is
0.05 in column 0, every column has roughness in [0.05, 1] and never 0, and
every row has metallic in [0, 1]. -/
theorem grid_parameters {α : Type} [LinearOrderedField α] :
    metallic 0 = (0 : α) ∧ metallic 4 = (1 : α) ∧ roughness 0 = (0.05 : α)
      ∧ (∀ c : Fin cols, (0.05 : α) ≤ roughness c.val ∧ roughness c.val ≤ (1 : α)
            ∧ roughness c.val ≠ (0 : α))
      ∧ (∀ r : Fin rows, (0 : α) ≤ metallic r.val ∧ metallic r.val ≤ (1 : α)) := by
  have h005 : (0 : α) < 0.05 := by norm_num
  have h1 : (0.05 : α) ≤ 1.0 := by norm_num
  have hlo : ∀ c : Nat, (0.05 : α) ≤ roughness c := fun c => le_min (le_max_right _ _) h1
  refine ⟨by simp [metallic], by norm_num [metallic, rows], ?_, ?_, ?_⟩
  · simp only [roughness, clamp, cols]
    norm_num
  · intro c
    refine ⟨hlo c.val, ?_, ne_of_gt (lt_of_lt_of_le h005 (hlo c.val))⟩
    exact le_trans (min_le_right _ _) (by norm_num)
  · intro r
    have hr : ((r.val : Nat) : α) ≤ 4 := by
      have : r.val ≤ 4 := Nat.le_of_lt_succ r.isLt
      exact_mod_cast this
    have h0 : (0 : α) ≤ ((r.val : Nat) : α) := Nat.cast_nonneg _
    simp only [metallic, rows]
    norm_num
    constructor
    · positivity
    · rw [div_le_one (by norm_num)]; exact hr

/-- C8: the four light positions uploaded in a frame are `lightPositions` of
the elapsed time read in that frame; two frames that read the same time upload
the same positions, whatever the loop state (key history, preset counter,
albedo, close flag), the other inputs and the number of frames run before. -/
theorem lights_depend_on_time_only {α : Type} [LinearOrderedField α] (sin cos : α → α)
    (fadd fmul pow : α → α → α) (n₁ n₂ : Int) (s₁ s₂ : LoopState α)
    (hist₁ hist₂ : List (FrameInput α))
    (close₁ close₂ : Bool) (esc₁ esc₂ key₁ key₂ : Int) (t : α) :
    (frame sin cos fadd fmul pow n₁ s₁ ⟨close₁, esc₁, key₁, t⟩).2.uLightPos
        = (frame sin cos fadd fmul pow n₂ s₂ ⟨close₂, esc₂, key₂, t⟩).2.uLightPos
      ∧ (frame sin cos fadd fmul pow n₁ (runLoop sin cos fadd fmul pow n₁ initState hist₁).1
            ⟨close₁, esc₁, key₁, t⟩).2.uLightPos
          = (frame sin cos fadd fmul pow n₂ (runLoop sin cos fadd fmul pow n₂ initState hist₂).1
            ⟨close₂, esc₂, key₂, t⟩).2.uLightPos
      ∧ (frame sin cos fadd fmul pow n₁ s₁ ⟨close₁, esc₁, key₁, t⟩).2.uLightPos
          = lightPositions sin cos fadd fmul t :=
  ⟨rfl, rfl, rfl⟩

/-- C10, as stated, fails: at t = 0 (where the sum 0 + 3.14f is exact) light 0
has z = 0 while light 1 has z = 6 sin 3.14, which is positive, so light 1 is
not the point opposite light 0. -/
theorem lights_opposite_counterexample :
    ((lightPositions Real.sin Real.cos (fun x y : ℝ => x + y) (fun x y : ℝ => x * y)
        0)[1]?).map (fun l : Vec3 ℝ => l.z)
      ≠ ((lightPositions Real.sin Real.cos (fun x y : ℝ => x + y) (fun x y : ℝ => x * y)
        0)[0]?).map (fun l : Vec3 ℝ => - l.z) := by
  have hpos : 0 < Real.sin 3.14 :=
    Real.sin_pos_of_pos_of_lt_pi (by norm_num) Real.pi_gt_d2
  have h6 : (6.0 : ℝ) = 6 := by norm_num
  simp only [lightPositions, h6]
  intro h
  simp at h
  linarith

/-- C10, amended: at every time t, and whatever the rounding of the `float`
sum and product, lights 0 and 1 have height 4 and lie on the circle of radius
6 about the y axis; the phase of light 1 is the sum `t + 3.14f`, so light 1
is where light 0 is when the elapsed time equals that sum. -/
theorem lights_same_circle (fadd fmul : ℝ → ℝ → ℝ) (t : ℝ) :
    ∃ l₀ l₁ l₂ l₃ : Vec3 ℝ,
      lightPositions Real.sin Real.cos fadd fmul t = [l₀, l₁, l₂, l₃]
        ∧ l₀.y = 4 ∧ l₁.y = 4
        ∧ l₀.x ^ 2 + l₀.z ^ 2 = 6 ^ 2 ∧ l₁.x ^ 2 + l₁.z ^ 2 = 6 ^ 2
        ∧ l₀.x = 6 * Real.cos t ∧ l₀.z = 6 * Real.sin t
        ∧ l₁.x = 6 * Real.cos (fadd t 3.14) ∧ l₁.z = 6 * Real.sin (fadd t 3.14)
        ∧ (lightPositions Real.sin Real.cos fadd fmul (fadd t 3.14))[0]? = some l₁ := by
  have h6 : (6.0 : ℝ) = 6 := by norm_num
  refine ⟨_, _, _, _, rfl, ?_, ?_, ?_, ?_, ?_, ?_, ?_, ?_, rfl⟩
  · norm_num
  · norm_num
  · have h := Real.sin_sq_add_cos_sq t
    show (6.0 * Real.cos t) ^ 2 + (6.0 * Real.sin t) ^ 2 = 6 ^ 2
    rw [h6]
    linear_combination 36 * h
  · have h := Real.sin_sq_add_cos_sq (fadd t 3.14)
    show (6.0 * Real.cos (fadd t 3.14)) ^ 2 + (6.0 * Real.sin (fadd t 3.14)) ^ 2 = 6 ^ 2
    rw [h6]
    linear_combination 36 * h
  · show (6.0 : ℝ) * Real.cos t = 6 * Real.cos t
    rw [h6]
  · show (6.0 : ℝ) * Real.sin t = 6 * Real.sin t
    rw [h6]
  · show (6.0 : ℝ) * Real.cos (fadd t 3.14) = 6 * Real.cos (fadd t 3.14)
    rw [h6]
  · show (6.0 : ℝ) * Real.sin (fadd t 3.14) = 6 * Real.sin (fadd t 3.14)
    rw [h6]

/-! ## Rising-edge detection -/

theorem pollKey_length (key : Nat) :
    ∀ (states : List Int) (prev : Nat → Int), (pollKey key prev states).length = states.length := by
  intro states
  induction states with
  | nil => intro prev; rfl
  | cons cur rest ih => intro prev; simp [pollKey, ih]

theorem pressedOnce_prev_same (prev : Nat → Int) (key : Nat) (cur : Int) :
    (pressedOnce prev key cur).2 key = cur := by
  simp [pressedOnce]

theorem pollKey_fired_iff (key : Nat) :
    ∀ (states : List Int) (prev : Nat → Int) (n : Nat),
      (pollKey key prev states)[n]? = some true ↔
        states[n]? = some GLFW_PRESS ∧ keyBefore (prev key) states n ≠ GLFW_PRESS := by
  intro states
  induction states with
  | nil => intro prev n; simp [pollKey]
  | cons cur rest ih =>
    intro prev n
    cases n with
    | zero => simp [pollKey, pressedOnce, keyBefore]
    | succ m =>
      simp only [pollKey, List.getElem?_cons_succ]
      rw [ih, pressedOnce_prev_same]
      cases m with
      | zero => simp [keyBefore]
      | succ m' => simp [keyBefore]

theorem pollKey_count (key : Nat) :
    ∀ (states : List Int) (prev : Nat → Int),
      (pollKey key prev states).count true = risingEdges (prev key) states := by
  intro states
  induction states with
  | nil => intro prev; rfl
  | cons cur rest ih =>
    intro prev
    simp only [pollKey, risingEdges, List.count_cons, ih, pressedOnce_prev_same]
    by_cases h : cur = GLFW_PRESS ∧ prev key ≠ GLFW_PRESS
    · simp [pressedOnce, h, Nat.add_comm]
    · simp [pressedOnce, h]

theorem pollKey_hold (key : Nat) :
    ∀ (k : Nat) (prev : Nat → Int), prev key = GLFW_PRESS →
      pollKey key prev (List.replicate k GLFW_PRESS) = List.replicate k false := by
  intro k
  induction k with
  | zero => intro prev _; rfl
  | succ k ih =>
    intro prev h
    simp only [List.replicate_succ, pollKey]
    rw [ih _ (pressedOnce_prev_same prev key GLFW_PRESS)]
    simp [pressedOnce, h]

theorem pollKey_press_run (key : Nat) (k : Nat) (prev : Nat → Int)
    (h : prev key ≠ GLFW_PRESS) :
    pollKey key prev (List.replicate (k + 1) GLFW_PRESS) = true :: List.replicate k false := by
  simp only [List.replicate_succ, pollKey]
  rw [pollKey_hold key k _ (pressedOnce_prev_same prev key GLFW_PRESS)]
  simp [pressedOnce, h]

theorem pollKey_release_then_hold (key : Nat) (k : Nat) :
    ∀ (hist : List Int) (prev : Nat → Int),
      pollKey key prev (hist ++ GLFW_RELEASE :: List.replicate (k + 1) GLFW_PRESS)
        = pollKey key prev hist ++ false :: true :: List.replicate k false := by
  intro hist
  induction hist with
  | nil =>
    intro prev
    have hne : (pressedOnce prev key GLFW_RELEASE).2 key ≠ GLFW_PRESS := by
      rw [pressedOnce_prev_same]; decide
    show (pressedOnce prev key GLFW_RELEASE).1
        :: pollKey key (pressedOnce prev key GLFW_RELEASE).2
            (List.replicate (k + 1) GLFW_PRESS) = _
    rw [pollKey_press_run key k _ hne]
    simp [pressedOnce, GLFW_RELEASE, GLFW_PRESS, pollKey]
  | cons cur rest ih =>
    intro prev
    show (pressedOnce prev key cur).1
        :: pollKey key (pressedOnce prev key cur).2
            (rest ++ GLFW_RELEASE :: List.replicate (k + 1) GLFW_PRESS) = _
    rw [ih]
    rfl

theorem pollKey_congr (key : Nat) :
    ∀ (states : List Int) (prev prev' : Nat → Int), prev key = prev' key →
      pollKey key prev states = pollKey key prev' states := by
  intro states
  induction states with
  | nil => intro _ _ _; rfl
  | cons cur rest ih =>
    intro prev prev' h
    simp only [pollKey]
    rw [ih (pressedOnce prev key cur).2 (pressedOnce prev' key cur).2
      (by rw [pressedOnce_prev_same, pressedOnce_prev_same])]
    simp [pressedOnce, h]

theorem runLoop_cFired {α : Type} [LinearOrderedField α] (sin cos : α → α)
    (fadd fmul pow : α → α → α) (n : Int) :
    ∀ (inputs : List (FrameInput α)) (s : LoopState α),
      (runLoop sin cos fadd fmul pow n s inputs).2.map (fun o => o.cFired)
        = (pollKey GLFW_KEY_C s.prev (inputs.map (fun i => i.keyC))).take
            (runLoop sin cos fadd fmul pow n s inputs).2.length := by
  intro inputs
  induction inputs with
  | nil => intro s; rfl
  | cons inp rest ih =>
    intro s
    by_cases hc : s.shouldClose = true
    · simp [runLoop, hc]
    · have hk : (frame sin cos fadd fmul pow n s inp).1.prev GLFW_KEY_C
          = (pressedOnce s.prev GLFW_KEY_C inp.keyC).2 GLFW_KEY_C := by
        simp [frame, pressedOnce]
      have hf : (frame sin cos fadd fmul pow n s inp).2.cFired
          = (pressedOnce s.prev GLFW_KEY_C inp.keyC).1 := by
        have hne : GLFW_KEY_C ≠ GLFW_KEY_ESCAPE := by decide
        simp [frame, pressedOnce, Function.update_noteq hne]
      simp only [runLoop, hc, Bool.false_eq_true, if_false, List.map_cons, List.length_cons,
        pollKey, List.take_succ_cons, ih]
      rw [pollKey_congr GLFW_KEY_C _ _ _ hk, hf]

/-- C4: polling a key once per frame with `pressedOnce`, starting from the
zeroed `prev` array: frame n fires exactly when the key is pressed on frame n
and was not pressed on the frame before; the number of firings is the number
of released-to-pressed transitions; a run of k+1 pressed frames after a
released frame (or at the start) fires on its first frame only.  In the frame
loop the C flags of the executed frames are these flags. -/
theorem pressedOnce_rising_edge {α : Type} [LinearOrderedField α] (sin cos : α → α)
    (fadd fmul pow : α → α → α) (key : Nat) (states : List Int) (n k : Nat) :
    ((pollKey key prevInit states)[n]? = some true ↔
        states[n]? = some GLFW_PRESS ∧ keyBefore GLFW_RELEASE states n ≠ GLFW_PRESS)
      ∧ (pollKey key prevInit states).length = states.length
      ∧ (pollKey key prevInit states).count true = risingEdges GLFW_RELEASE states
      ∧ pollKey key prevInit (states ++ GLFW_RELEASE :: List.replicate (k + 1) GLFW_PRESS)
          = pollKey key prevInit states ++ false :: true :: List.replicate k false
      ∧ pollKey key prevInit (List.replicate (k + 1) GLFW_PRESS)
          = true :: List.replicate k false
      ∧ (∀ (inputs : List (FrameInput α)) (count : Int),
          (runLoop sin cos fadd fmul pow count initState inputs).2.map (fun o => o.cFired)
            = (pollKey GLFW_KEY_C prevInit (inputs.map (fun i => i.keyC))).take
                (runLoop sin cos fadd fmul pow count initState inputs).2.length) :=
  ⟨pollKey_fired_iff key states prevInit n, pollKey_length key states prevInit,
    pollKey_count key states prevInit, pollKey_release_then_hold key k states prevInit,
    pollKey_press_run key k prevInit (by show (0 : Int) ≠ 1; decide),
    fun inputs count => runLoop_cFired sin cos fadd fmul pow count inputs initState⟩

/-! ## Preset cycling -/

theorem cyclePreset_period {α : Type} [Field α] (m : Material α) :
    cyclePreset (cyclePreset (cyclePreset (cyclePreset m))) = cyclePreset m := by
  have hq : (m.preset + 1) % 3 < 3 := Nat.mod_lt _ (by norm_num)
  simp only [cyclePreset]
  generalize (m.preset + 1) % 3 = q at hq
  interval_cases q <;> simp

theorem cyclePreset_preset_period {α : Type} [Field α] (m : Material α) (h : m.preset < 3) :
    (cyclePreset (cyclePreset (cyclePreset m))).preset = m.preset := by
  simp only [cyclePreset]
  omega

theorem pressC_preset_lt {α : Type} [Field α] : ∀ n : Nat, (pressC n : Material α).preset < 3
  | 0 => by simp [pressC, initMaterial]
  | n + 1 => by
    simp only [pressC, cyclePreset]
    exact Nat.mod_lt _ (by norm_num)

/-- C5, as stated, fails: three presses of C from the initial state (five
frames: down, up, down, up, down) leave the material `pressC 3`; its counter
is 0 again, but the colour uploaded to the shader is that of copper
(0.95, 0.64, 0.54) and not that of the initial albedo (0.95, 0, 0). -/
theorem preset_cycle_counterexample :
    (runLoop Real.sin Real.cos (fun x y : ℝ => x + y) (fun x y : ℝ => x * y)
        (fun x y : ℝ => x ^ y) 12288 initState
        [⟨false, GLFW_RELEASE, GLFW_PRESS, 0⟩, ⟨false, GLFW_RELEASE, GLFW_RELEASE, 0⟩,
         ⟨false, GLFW_RELEASE, GLFW_PRESS, 0⟩, ⟨false, GLFW_RELEASE, GLFW_RELEASE, 0⟩,
         ⟨false, GLFW_RELEASE, GLFW_PRESS, 0⟩]).1.material = pressC 3
      ∧ ¬ ((pressC 3 : Material ℝ).preset = (pressC 0 : Material ℝ).preset
        ∧ srgbToLinear (fun x y : ℝ => x ^ y) (pressC 3 : Material ℝ).albedo
            = srgbToLinear (fun x y : ℝ => x ^ y) (pressC 0 : Material ℝ).albedo) := by
  refine ⟨by simp [runLoop, frame, initState, pressedOnce, prevInit, GLFW_RELEASE,
    GLFW_PRESS, GLFW_KEY_C, GLFW_KEY_ESCAPE, pressC, Function.update], ?_⟩
  rintro ⟨-, h⟩
  have hy := congrArg Vec3.y h
  have h3 : ((pressC 3 : Material ℝ).albedo).y = 0.64 := by
    simp [pressC, cyclePreset, initMaterial]
  have h0 : ((pressC 0 : Material ℝ).albedo).y = 0 := by
    norm_num [pressC, initMaterial]
  simp only [srgbToLinear, h3, h0] at hy
  have hpos : (0 : ℝ) < (0.64 : ℝ) ^ (2.2 : ℝ) := Real.rpow_pos_of_pos (by norm_num) _
  rw [Real.zero_rpow (by norm_num)] at hy
  linarith

/-- C5, amended: the preset counter has period 3 (after three presses it has
its previous value, 0 from the initial state); after the first three presses
the albedo is copper; and once at least one press has happened, three more
presses restore the whole material, so the uploaded colour is the same. -/
theorem preset_cycle {α : Type} [Field α] (pow : α → α → α) (n : Nat) :
    (pressC (n + 3) : Material α).preset = (pressC n : Material α).preset
      ∧ (pressC 3 : Material α) = { preset := 0, albedo := ⟨0.95, 0.64, 0.54⟩ }
      ∧ (pressC (n + 1 + 3) : Material α) = pressC (n + 1)
      ∧ srgbToLinear pow (pressC (n + 1 + 3) : Material α).albedo
          = srgbToLinear pow (pressC (n + 1) : Material α).albedo := by
  have h4 : (pressC (n + 1 + 3) : Material α) = pressC (n + 1) :=
    cyclePreset_period (pressC n)
  refine ⟨cyclePreset_preset_period (pressC n) (pressC_preset_lt n), ?_, h4, by rw [h4]⟩
  simp [pressC, cyclePreset, initMaterial]

end CGLab2
